import Mathlib

/-!
Verification of the codex-arch dependency-analysis core.

Shallow embedding of the in-scope modules:
  * `codex_arch/extractors/python/dependency_graph.py` (`DependencyGraph`)
  * `codex_arch/extractors/python/path_resolver.py` (`ImportPathResolver`)
  * `codex_arch/change_detection/incremental.py` (`IncrementalAnalyzer`)

Python dicts are modelled as insertion-ordered association lists with unique
keys (the `PyDict` operations below reproduce CPython dict semantics: lookup
by key, in-place value replacement on re-insert, append for a fresh key,
deletion removing the entry).  Python sets are modelled as insertion-ordered
duplicate-free lists.  External collaborators (git change detector, cache
store, metrics collector, the `os` module) are passed in as explicit inputs.
-/

set_option maxHeartbeats 1000000
set_option maxRecDepth 8000

namespace CodexArch

/-- Python dict: insertion-ordered association list (keys unique in any state
produced by the operations below). -/
abbrev PyDict (α β : Type _) := List (α × β)

namespace PyDict

variable {α β : Type _} [DecidableEq α]

/-- Dict lookup `d[k]` / `d.get(k)`: first (only) binding for the key. -/
def lookup : PyDict α β → α → Option β
  | [], _ => none
  | kv :: rest, k2 => if k2 = kv.1 then some kv.2 else lookup rest k2

/-- Python `k in d`. -/
def hasKey (d : PyDict α β) (k : α) : Bool :=
  (lookup d k).isSome

/-- Python `d.get(k, dflt)`. -/
def getD (d : PyDict α β) (k : α) (dflt : β) : β :=
  (lookup d k).getD dflt

/-- Python `d[k] = v`: replace the value in place when the key exists
(position preserved), otherwise append the new binding at the end. -/
def insert (d : PyDict α β) (k : α) (v : β) : PyDict α β :=
  if hasKey d k then
    d.map (fun kv => if kv.1 = k then (k, v) else kv)
  else
    d ++ [(k, v)]

/-- Python `del d[k]`. -/
def erase (d : PyDict α β) (k : α) : PyDict α β :=
  d.filter (fun kv => kv.1 ≠ k)

/-- Python `list(d.keys())`. -/
def keys (d : PyDict α β) : List α :=
  d.map Prod.fst

theorem lookup_append_single (d : PyDict α β) (k : α) (v : β) (k2 : α) :
    lookup (d ++ [(k, v)]) k2 =
      match lookup d k2 with
      | some w => some w
      | none => if k2 = k then some v else none := by
  induction d with
  | nil => simp [lookup]
  | cons kv rest ih =>
    by_cases hk2 : k2 = kv.1
    · simp [lookup, hk2]
    · simpa [lookup, hk2] using ih

theorem lookup_map_replace (d : PyDict α β) (k : α) (v : β) (k2 : α) :
    lookup (d.map (fun kv => if kv.1 = k then (k, v) else kv)) k2 =
      if k2 = k then (lookup d k).map (fun _ => v) else lookup d k2 := by
  induction d with
  | nil => simp [lookup]
  | cons kv rest ih =>
    by_cases hk0 : kv.1 = k <;> by_cases hk2 : k2 = k <;>
      by_cases hk3 : k2 = kv.1 <;> simp_all [lookup]

theorem lookup_insert (d : PyDict α β) (k : α) (v : β) (k2 : α) :
    lookup (insert d k v) k2 = if k2 = k then some v else lookup d k2 := by
  unfold insert
  by_cases hc : hasKey d k
  · rw [if_pos hc, lookup_map_replace]
    unfold hasKey at hc
    by_cases hk2 : k2 = k
    · obtain ⟨w, hw⟩ := Option.isSome_iff_exists.mp hc
      simp [hk2, hw]
    · simp [hk2]
  · rw [if_neg hc, lookup_append_single]
    unfold hasKey at hc
    have hnone : lookup d k = none := by
      cases h : lookup d k with
      | none => rfl
      | some w => exact absurd (by simp [h]) hc
    by_cases hk2 : k2 = k
    · subst hk2
      simp [hnone]
    · cases h : lookup d k2 with
      | none => simp [hk2]
      | some w => simp [hk2]

theorem lookup_erase (d : PyDict α β) (k : α) (k2 : α) :
    lookup (erase d k) k2 = if k2 = k then none else lookup d k2 := by
  induction d with
  | nil => simp [erase, lookup]
  | cons kv rest ih =>
    by_cases hk0 : kv.1 = k <;> by_cases hk2 : k2 = k <;>
      by_cases hk3 : k2 = kv.1 <;> simp_all [erase, lookup]

theorem lookup_eq_none_of_not_mem_keys {d : PyDict α β} {k : α}
    (h : k ∉ keys d) : lookup d k = none := by
  induction d with
  | nil => rfl
  | cons kv rest ih =>
    simp [keys] at h
    simp [lookup, h.1]
    exact ih (by simp [keys, h.2])

end PyDict

/-! ## Dependency graph
Embedding of `codex_arch/extractors/python/dependency_graph.py`.
Node and edge metadata dicts are `PyDict String μ` for an arbitrary value
type `μ` (the Python code stores `Dict[str, Any]`).  `self.edges`,
`self.reverse_edges` and `self.unresolved_imports` are `defaultdict(list)`;
a `defaultdict` access that would create an empty entry is always followed
by an append in the source, so the insert-with-default modelling below is
exact for every state the operations can produce.  `self.external_deps` is a
`defaultdict(set)`; sets are modelled as insertion-ordered duplicate-free
lists. -/

/-- State of `DependencyGraph.__init__`. -/
structure DependencyGraph (μ : Type _) where
  nodes : PyDict String (PyDict String μ)
  edges : PyDict String (List String)
  reverse_edges : PyDict String (List String)
  unresolved_imports : PyDict String (List String)
  external_deps : PyDict String (List String)
deriving DecidableEq, Repr

namespace DependencyGraph

variable {μ : Type _} [DecidableEq μ]

/-- The empty graph produced by `DependencyGraph()`. -/
def empty (μ : Type _) : DependencyGraph μ :=
  { nodes := [], edges := [], reverse_edges := [], unresolved_imports := [],
    external_deps := [] }

/-- `add_node(node_id, data)`: insert only when absent (first write wins).
`data=None` defaults to the empty dict, as does a falsy (empty) dict. -/
def add_node (g : DependencyGraph μ) (node_id : String)
    (data : PyDict String μ := []) : DependencyGraph μ :=
  if PyDict.hasKey g.nodes node_id then g
  else { g with nodes := PyDict.insert g.nodes node_id data }

/-- `get_dependencies(node_id)`: `self.edges.get(node_id, [])`. -/
def get_dependencies (g : DependencyGraph μ) (node_id : String) : List String :=
  PyDict.getD g.edges node_id []

/-- `get_dependents(node_id)`: `self.reverse_edges.get(node_id, [])`. -/
def get_dependents (g : DependencyGraph μ) (node_id : String) : List String :=
  PyDict.getD g.reverse_edges node_id []

/-- `add_edge(source, target, data)`: ensure the endpoints exist, then append
the edge to both indexes only when `target` is not already in the source's
edge list.  The `data` argument is normalised (`if not data: data = dict()`)
and then never used: the Python source stores no edge metadata. -/
def add_edge (g : DependencyGraph μ) (source target : String)
    (data : PyDict String μ := []) : DependencyGraph μ :=
  let _ := data
  let g1 := if PyDict.hasKey g.nodes source then g else add_node g source
  let g2 := if PyDict.hasKey g1.nodes target then g1 else add_node g1 target
  let existing := PyDict.getD g2.edges source []
  if target ∈ existing then g2
  else
    let rev := PyDict.getD g2.reverse_edges target []
    { g2 with
      edges := PyDict.insert g2.edges source (existing ++ [target]),
      reverse_edges := PyDict.insert g2.reverse_edges target (rev ++ [source]) }

/-- `add_unresolved_import(source, import_name)`:
`self.unresolved_imports[source].append(import_name)` on a `defaultdict`. -/
def add_unresolved_import (g : DependencyGraph μ) (source import_name : String) :
    DependencyGraph μ :=
  let l := PyDict.getD g.unresolved_imports source []
  { g with unresolved_imports := PyDict.insert g.unresolved_imports source (l ++ [import_name]) }

/-- `add_external_dependency(source, module_name)`:
`self.external_deps[source].add(module_name)` on a `defaultdict(set)`. -/
def add_external_dependency (g : DependencyGraph μ) (source module_name : String) :
    DependencyGraph μ :=
  let s := PyDict.getD g.external_deps source []
  let s2 := if module_name ∈ s then s else s ++ [module_name]
  { g with external_deps := PyDict.insert g.external_deps source s2 }

/-- `get_all_nodes()`: `list(self.nodes.keys())`. -/
def get_all_nodes (g : DependencyGraph μ) : List String :=
  PyDict.keys g.nodes

/-- Python `list.index(x)`: index of the first occurrence. -/
def listIndex : List String → String → Nat
  | [], _ => 0
  | x :: xs, a => if a = x then 0 else listIndex xs a + 1

/-- Mutable state of the `find_cycles` traversal: `cycles`, `visited` and the
`path` stack.  The Python `path_set` is kept equal to `set(path)` at every
step (append paired with add, pop paired with remove), so path membership is
modelled as membership in `path`. -/
structure DfsState where
  cycles : List (List String)
  visited : List String
  path : List String
deriving DecidableEq, Repr

/-- Inner `dfs(node)` of `find_cycles`, with explicit fuel for the recursion
depth (the Python call stack); `find_cycles` supplies fuel exceeding the
longest possible simple path, so the cutoff is never hit. -/
def dfsCycles (g : DependencyGraph μ) : Nat → String → DfsState → DfsState
  | 0, _, s => s
  | fuel + 1, node, s =>
    if node ∈ s.visited then s
    else if node ∈ s.path then
      { s with cycles := s.cycles ++ [s.path.drop (listIndex s.path node) ++ [node]] }
    else
      let s1 : DfsState := { s with path := s.path ++ [node] }
      let s2 := (g.get_dependencies node).foldl (fun st dep => dfsCycles g fuel dep st) s1
      { cycles := s2.cycles, visited := s2.visited ++ [node], path := s2.path.dropLast }

/-- `find_cycles()`: run `dfs` from every node in insertion order, skipping
nodes already marked visited. -/
def find_cycles (g : DependencyGraph μ) : List (List String) :=
  let fuel := g.nodes.length + 1
  ((g.get_all_nodes).foldl
    (fun s node => if node ∈ s.visited then s else dfsCycles g fuel node s)
    { cycles := [], visited := [], path := [] }).cycles

/-- Shape of `to_dict()` / the persisted snapshot file: top-level fields
`nodes`, `edges`, `unresolved_imports`, `external_dependencies`. -/
structure GraphDict (μ : Type _) where
  nodes : PyDict String (PyDict String μ)
  edges : PyDict String (List String)
  unresolved_imports : PyDict String (List String)
  external_dependencies : PyDict String (List String)
deriving DecidableEq, Repr

/-- `to_dict()`: the four-field record; `external_dependencies` is the
comprehension turning each stored set into a list. -/
def to_dict (g : DependencyGraph μ) : GraphDict μ :=
  { nodes := g.nodes,
    edges := g.edges,
    unresolved_imports := g.unresolved_imports,
    external_dependencies := g.external_deps.map (fun kv => (kv.1, kv.2)) }

/-- Modelled from the spec: the repository has no graph deserializer under
`src/` (`dependency_graph.py` exposes only `to_dict`/`to_json`), while §4.2
and §6 of the spec require the snapshot shape to round-trip through the
graph's serialize/deserialize pair.  Following the spec's words, the inverse
reads the four top-level fields back and rebuilds the redundant reverse-edge
index as the inverse of `edges`. -/
def from_dict (d : GraphDict μ) : DependencyGraph μ :=
  { nodes := d.nodes,
    edges := d.edges,
    reverse_edges := d.edges.foldl
      (fun rd kv => kv.2.foldl
        (fun rd2 t => PyDict.insert rd2 t (PyDict.getD rd2 t [] ++ [kv.1])) rd) [],
    unresolved_imports := d.unresolved_imports,
    external_deps := d.external_dependencies }

/-- Mutating operations of the graph API, for stating reachable-state
invariants. -/
inductive GraphOp (μ : Type _) where
  | addNode (id : String) (data : PyDict String μ)
  | addEdge (source target : String) (data : PyDict String μ)
  | addUnresolvedImport (source import_name : String)
  | addExternalDependency (source module_name : String)

/-- Apply one operation. -/
def applyOp (g : DependencyGraph μ) : GraphOp μ → DependencyGraph μ
  | .addNode id data => g.add_node id data
  | .addEdge s t data => g.add_edge s t data
  | .addUnresolvedImport s n => g.add_unresolved_import s n
  | .addExternalDependency s n => g.add_external_dependency s n

/-- Run a sequence of operations from the empty graph. -/
def runOps (ops : List (GraphOp μ)) : DependencyGraph μ :=
  ops.foldl applyOp (empty μ)

end DependencyGraph

/-! ## Incremental analyzer
Embedding of `codex_arch/change_detection/incremental.py`.  The external
collaborators are explicit inputs: the git change detector's report is a
`Changes` value, the cache manager's key listing is a `List String`, the
dependency analyzer's partial re-extraction (`analyze_specific_files`) is a
`DepsAnalysis` value, and `git_detector.get_commit_info()` is a value of an
opaque type `κ`.  `json.loads(json.dumps(x))` is a deep value copy; the heap
model at the end makes the resulting absence of aliasing explicit. -/

/-- Report of `GitChangeDetector.get_changes()`: the three file sets,
modelled as insertion-ordered duplicate-free lists. -/
structure Changes where
  added : List String
  modified : List String
  deleted : List String
deriving DecidableEq, Repr

namespace Changes

/-- Python `set().union(*changes.values())`, preserving first-seen order. -/
def allChangedFiles (c : Changes) : List String :=
  ((c.added ++ c.modified) ++ c.deleted).dedup

/-- Python `any(changes.values())`. -/
def anyChanges (c : Changes) : Bool :=
  ¬ (c.added = [] ∧ c.modified = [] ∧ c.deleted = [])

/-- Python `changes.get('added', set()).union(changes.get('modified', set()))`. -/
def combinedChanges (c : Changes) : List String :=
  c.added ++ c.modified.filter (fun f => f ∉ c.added)

end Changes

/-- Aggregate metrics written by `_recalculate_metrics`. -/
structure DepMetrics (κ : Type _) where
  module_count : Nat
  total_dependencies : Nat
  last_updated : κ
deriving DecidableEq, Repr

/-- Cached dependency-analysis snapshot: the `dependencies` map (module name
to edge list) and the `metrics` entry (absent until first recalculation). -/
structure DepsAnalysis (κ : Type _) where
  dependencies : PyDict String (List String)
  metrics : Option (DepMetrics κ)
deriving DecidableEq, Repr

namespace IncrementalAnalyzer

/-- `should_use_incremental(force_full)`, with the collaborator answers as
inputs: `cache_keys` from `cache_manager.get_cache_keys()` and `changes`
from `git_detector.get_changes()` (the surrounding `try` turns a collaborator
exception into `False`; the happy path is modelled). -/
def should_use_incremental (force_full : Bool) (cache_keys : List String)
    (changes : Changes) : Bool :=
  if force_full then false
  else if cache_keys = [] then false
  else if ¬ changes.anyChanges then true
  else if changes.allChangedFiles.length > 100 then false
  else true

/-- Characters of a Python string after `.replace(c, r)` for 1-character
arguments. -/
def replaceChar (c r : Char) (s : String) : String :=
  String.mk (s.data.map (fun x => if x = c then r else x))

/-- Python `s.endswith(suffix)`. -/
def strEndsWith (s suffix : String) : Bool :=
  suffix.data.isSuffixOf s.data

/-- Python `s[:-n]` for `n ≤ len(s)`. -/
def strDropRight (s : String) (n : Nat) : String :=
  String.mk (s.data.take (s.data.length - n))

/-- `_file_path_to_module_name(file_path)`. -/
def file_path_to_module_name (file_path : String) : String :=
  if ¬ strEndsWith file_path ".py" then file_path
  else
    let module_path := strDropRight file_path 3
    let module_name := replaceChar '\\' '.' (replaceChar '/' '.' module_path)
    if strEndsWith module_name ".__init__" then strDropRight module_name 9
    else module_name

/-- `_recalculate_metrics(analysis)`: overwrite `analysis['metrics']` with
module count, total dependency count and the commit info stamp. -/
def recalculate_metrics (commit_info : κ) (a : DepsAnalysis κ) : DepsAnalysis κ :=
  let modules := a.dependencies
  let m : DepMetrics κ :=
    { module_count := modules.length,
      total_dependencies := (modules.map (fun kv => kv.2.length)).sum,
      last_updated := commit_info }
  { a with metrics := some m }

/-- Deletion loop of `_update_dependency_analysis`: for every deleted file,
drop its module's entry from the dependency map when present. -/
def apply_deletions (deleted : List String) (a : DepsAnalysis κ) : DepsAnalysis κ :=
  { a with dependencies := deleted.foldl deleteOne a.dependencies }
where
  /-- One iteration: `if module_name in deps: del deps[module_name]`. -/
  deleteOne (d : PyDict String (List String)) (file_path : String) :
      PyDict String (List String) :=
    let module_name := file_path_to_module_name file_path
    if PyDict.hasKey d module_name then PyDict.erase d module_name else d

/-- Merge loop of `_update_dependency_analysis`: each module of the partial
analysis overwrites its entry in the dependency map wholesale. -/
def merge_partial_results (partialResult : DepsAnalysis κ) (a : DepsAnalysis κ) :
    DepsAnalysis κ :=
  let d2 := partialResult.dependencies.foldl (fun d kv => PyDict.insert d kv.1 kv.2) a.dependencies
  { a with dependencies := d2 }

/-- `_update_dependency_analysis(cached_analysis, changes)`.  The clone
(`json.loads(json.dumps(...))`) is a value copy; `partialResult` is the
output of `analyzer.analyze_specific_files(list(combined_changes))`, used
only when the combined added/modified set is non-empty. -/
def update_dependency_analysis (cached : DepsAnalysis κ) (changes : Changes)
    (partialResult : DepsAnalysis κ) (commit_info : κ) : DepsAnalysis κ :=
  let updated := cached
  let updated := apply_deletions changes.deleted updated
  let combined := changes.combinedChanges
  let updated := if combined = [] then updated else merge_partial_results partialResult updated
  recalculate_metrics commit_info updated

/-- Aggregated metrics written by `_recalculate_aggregated_metrics`.  The
Python average is a float division; it is modelled as the exact rational. -/
structure AggMetrics (κ : Type _) where
  total_files : Nat
  total_loc : Nat
  avg_loc_per_file : ℚ
  last_updated : κ
deriving DecidableEq, Repr

/-- Cached metrics-analysis snapshot: per-file metric records (free-form
integer-valued dicts, `loc` read with default 0) plus the aggregate entry. -/
structure MetricsAnalysis (κ : Type _) where
  file_metrics : PyDict String (PyDict String Nat)
  aggregated : Option (AggMetrics κ)
deriving DecidableEq, Repr

/-- `_recalculate_aggregated_metrics(metrics)`. -/
def recalculate_aggregated_metrics (commit_info : κ) (a : MetricsAnalysis κ) :
    MetricsAnalysis κ :=
  let fm := a.file_metrics
  let total_loc : Nat := (fm.map (fun kv => PyDict.getD kv.2 "loc" (0 : Nat))).sum
  let total_files : Nat := fm.length
  let avg : ℚ := if total_files > 0 then (total_loc : ℚ) / (total_files : ℚ) else 0
  let agg : AggMetrics κ :=
    { total_files := total_files, total_loc := total_loc,
      avg_loc_per_file := avg, last_updated := commit_info }
  { a with aggregated := some agg }

/-- File-metric update loops of `_update_metrics_analysis`: first every entry
of the partial collection overwrites its file's record; then every changed
file absent from the partial collection has its record deleted when present. -/
def apply_file_metric_updates (partialFileMetrics : PyDict String (PyDict String Nat))
    (changed_files : List String) (a : MetricsAnalysis κ) : MetricsAnalysis κ :=
  let fm := a.file_metrics
  let fm := partialFileMetrics.foldl (fun d kv => PyDict.insert d kv.1 kv.2) fm
  let fm := changed_files.foldl (fun d fp => removeGone fp d) fm
  { a with file_metrics := fm }
where
  /-- One iteration of the removal loop (the Python guard
  `if file_path in changed_files` is vacuously true inside the loop). -/
  removeGone (fp : String) (d : PyDict String (PyDict String Nat)) :
      PyDict String (PyDict String Nat) :=
    if ¬ PyDict.hasKey partialFileMetrics fp then
      if PyDict.hasKey d fp then PyDict.erase d fp else d
    else d

/-- `_update_metrics_analysis(cached_metrics, changed_files)`:
`partialFileMetrics` models `collector.collect_metrics_for_files(...)`
restricted to its `file_metrics` field. -/
def update_metrics_analysis (cached : MetricsAnalysis κ) (changed_files : List String)
    (partialFileMetrics : PyDict String (PyDict String Nat)) (commit_info : κ) :
    MetricsAnalysis κ :=
  let updated := cached
  let updated := apply_file_metric_updates partialFileMetrics changed_files updated
  recalculate_aggregated_metrics commit_info updated

end IncrementalAnalyzer

/-! ## Object heap
A small explicit-heap model used to state frame properties of the update
steps.  A heap cell holds one Python object; `json.loads(json.dumps(x))`
allocates a fresh cell holding the same value, and each statement of the
Python body mutates only the cell it targets. -/

/-- Read the cell at address `r` (present for every address in range). -/
def heapRead (mem : List σ) (r : Nat) : Option σ :=
  mem.get? r

/-- Allocate a fresh cell; returns the extended heap and the new address. -/
def heapAlloc (mem : List σ) (v : σ) : List σ × Nat :=
  (mem ++ [v], mem.length)

/-- Apply a mutation to the cell at address `r` only. -/
def heapModify : List σ → Nat → (σ → σ) → List σ
  | [], _, _ => []
  | x :: xs, 0, f => f x :: xs
  | x :: xs, n + 1, f => x :: heapModify xs n f

theorem heapRead_alloc_lt (mem : List σ) (v : σ) (r : Nat) (h : r < mem.length) :
    heapRead (heapAlloc mem v).1 r = heapRead mem r := by
  simp [heapRead, heapAlloc, List.get?_eq_getElem?, List.getElem?_append_left h]

theorem heapRead_modify_ne (mem : List σ) (r r2 : Nat) (f : σ → σ) (h : r2 ≠ r) :
    heapRead (heapModify mem r f) r2 = heapRead mem r2 := by
  induction mem generalizing r r2 with
  | nil => simp [heapModify]
  | cons x xs ih =>
    cases r with
    | zero =>
      cases r2 with
      | zero => exact absurd rfl h
      | succ m => simp [heapModify, heapRead]
    | succ n =>
      cases r2 with
      | zero => simp [heapModify, heapRead]
      | succ m =>
        simp only [heapModify, heapRead, List.get?]
        exact ih n m (fun hh => h (by simp [hh]))

namespace IncrementalAnalyzer

/-- `_update_dependency_analysis` as it executes against the heap: read the
cached snapshot, allocate the deep copy, then apply each mutating statement
of the body to the copy's cell; returns the heap and the address of the
returned object. -/
def update_dependency_analysis_onHeap (mem : List (DepsAnalysis κ)) (cachedRef : Nat)
    (changes : Changes) (partialResult : DepsAnalysis κ) (commit_info : κ)
    (dflt : DepsAnalysis κ) : List (DepsAnalysis κ) × Nat :=
  let cachedVal := (heapRead mem cachedRef).getD dflt
  let alloc := heapAlloc mem cachedVal
  let mem1 := alloc.1
  let updatedRef := alloc.2
  let mem2 := heapModify mem1 updatedRef (apply_deletions changes.deleted)
  let combined := changes.combinedChanges
  let mem3 := if combined = [] then mem2 else heapModify mem2 updatedRef (merge_partial_results partialResult)
  let mem4 := heapModify mem3 updatedRef (recalculate_metrics commit_info)
  (mem4, updatedRef)

/-- `_update_metrics_analysis` as it executes against the heap, in the same
style. -/
def update_metrics_analysis_onHeap (mem : List (MetricsAnalysis κ)) (cachedRef : Nat)
    (changed_files : List String) (partialFileMetrics : PyDict String (PyDict String Nat))
    (commit_info : κ) (dflt : MetricsAnalysis κ) : List (MetricsAnalysis κ) × Nat :=
  let cachedVal := (heapRead mem cachedRef).getD dflt
  let alloc := heapAlloc mem cachedVal
  let mem1 := alloc.1
  let updatedRef := alloc.2
  let mem2 := heapModify mem1 updatedRef (apply_file_metric_updates partialFileMetrics changed_files)
  let mem3 := heapModify mem2 updatedRef (recalculate_aggregated_metrics commit_info)
  (mem3, updatedRef)

end IncrementalAnalyzer

/-! ## Import path resolver
Embedding of `codex_arch/extractors/python/path_resolver.py`.  The `os`
module is an external collaborator: `os.path.isfile` may raise an I/O error
(permission, transient), modelled by `Except`; `os.path.abspath` and
`os.path.dirname` are opaque pure string functions; `os.path.join` is the
plain separator join.  The `try`/`except` in `resolve_import` is the match on
the `Except` value at the end of `resolve_import`. -/

/-- Filesystem I/O failures that `os.path` calls can raise. -/
inductive IOErr where
  | permissionDenied
  | transient
deriving DecidableEq, Repr

/-- The slice of the `os` module the resolver touches. -/
structure OsModel where
  isfile : String → Except IOErr Bool
  abspath : String → String
  dirname : String → String

/-- Python `s.split(c)` for a 1-character separator. -/
def splitOnCharAux (c : Char) : List Char → List Char → List String
  | [], acc => [String.mk acc.reverse]
  | x :: xs, acc =>
    if x = c then String.mk acc.reverse :: splitOnCharAux c xs []
    else splitOnCharAux c xs (x :: acc)

/-- Python `s.split(c)` for a 1-character separator. -/
def splitOnChar (c : Char) (s : String) : List String :=
  splitOnCharAux c s.data []

/-- `os.path.join(path, *parts)` with the forward-slash separator. -/
def joinParts (path : String) (parts : List String) : String :=
  parts.foldl (fun p q => p ++ "/" ++ q) path

namespace ImportPathResolver

/-- State of an `ImportPathResolver`. -/
structure Resolver where
  root_dir : String
  python_ext : String
  sys_path : List String
  path_cache : PyDict String (Option String)
deriving DecidableEq, Repr

/-- `ImportPathResolver.__init__`: absolutise the root and put it at the
front of the `sys.path` copy when absent. -/
def initResolver (osm : OsModel) (root_dir : String) (python_ext : String)
    (sys_path_initial : List String) : Resolver :=
  let rd := osm.abspath root_dir
  let sp := if rd ∈ sys_path_initial then sys_path_initial else rd :: sys_path_initial
  { root_dir := rd, python_ext := python_ext, sys_path := sp, path_cache := [] }

/-- `_find_module_path(module_path)`: probe `<p>.py`, `<p>/__init__.py`,
then the binary extensions, in order; first existing file wins. -/
def find_module_path (osm : OsModel) (python_ext : String) (module_path : String) :
    Except IOErr (Option String) := do
  let py_path := module_path ++ python_ext
  if (← osm.isfile py_path) then
    return some py_path
  let init_path := module_path ++ "/" ++ ("__init__" ++ python_ext)
  if (← osm.isfile init_path) then
    return some init_path
  let pyd_path := module_path ++ ".pyd"
  if (← osm.isfile pyd_path) then
    return some pyd_path
  let so_path := module_path ++ ".so"
  if (← osm.isfile so_path) then
    return some so_path
  let pyc_path := module_path ++ ".pyc"
  if (← osm.isfile pyc_path) then
    return some pyc_path
  return none

/-- The absolute-import loop: search the `sys_path` roots in order, stopping
at the first hit; an I/O error in any probe propagates (to the `except`). -/
def search_sys_path (osm : OsModel) (python_ext import_name : String) :
    List String → Except IOErr (Option String)
  | [] => .ok none
  | p :: rest => do
    let module_path := joinParts p (splitOnChar '.' import_name)
    let result ← find_module_path osm python_ext module_path
    match result with
    | some resolved => return some resolved
    | none => search_sys_path osm python_ext import_name rest

/-- `for _ in range(level - 1): source_dir = os.path.dirname(source_dir)`. -/
def upDirs (osm : OsModel) : Nat → String → String
  | 0, d => d
  | n + 1, d => upDirs osm n (osm.dirname d)

/-- The f-string cache key `"{import_name}:{source_file}:{level}"`
(`source_file=None` prints as `None`). -/
def resolveCacheKey (import_name : String) (source_file : Option String)
    (level : Nat) : String :=
  let sf := match source_file with | some s => s | none => "None"
  import_name ++ ":" ++ sf ++ ":" ++ Nat.repr level

/-- Body of the `try` block of `resolve_import` (after the early return for
a relative import without source context, which never reaches this point). -/
def resolve_attempt (osm : OsModel) (r : Resolver) (import_name : String)
    (source_file : Option String) (level : Nat) : Except IOErr (Option String) :=
  if level > 0 then
    match source_file with
    | none => .ok none
    | some sf =>
      let source_dir := osm.dirname (osm.abspath sf)
      let source_dir := upDirs osm (level - 1) source_dir
      let module_path :=
        if import_name ≠ "" then joinParts source_dir (splitOnChar '.' import_name)
        else source_dir
      find_module_path osm r.python_ext module_path
  else
    search_sys_path osm r.python_ext import_name r.sys_path

/-- `resolve_import(import_name, source_file, level)`: cache check, early
`return None` for a relative import without source file (inside `try`,
before the cache write), then the probing body; the `except Exception`
clause turns any raised error into a plain `None` without caching. -/
def resolve_import (osm : OsModel) (r : Resolver) (import_name : String)
    (source_file : Option String) (level : Nat) : Option String × Resolver :=
  let cache_key := resolveCacheKey import_name source_file level
  match PyDict.lookup r.path_cache cache_key with
  | some v => (v, r)
  | none =>
    if level > 0 ∧ source_file = none then (none, r)
    else
      match resolve_attempt osm r import_name source_file level with
      | .ok resolved =>
        (resolved, { r with path_cache := PyDict.insert r.path_cache cache_key resolved })
      | .error _ => (none, r)

end ImportPathResolver

/-! ## Shared helper lemmas -/

namespace PyDict

theorem getD_insert {α β : Type _} [DecidableEq α] (d : PyDict α β) (k : α) (v : β)
    (k2 : α) (dflt : β) :
    getD (insert d k v) k2 dflt = if k2 = k then v else getD d k2 dflt := by
  unfold getD
  rw [lookup_insert]
  by_cases hk2 : k2 = k <;> simp [hk2]

theorem getD_erase {α β : Type _} [DecidableEq α] (d : PyDict α β) (k : α)
    (k2 : α) (dflt : β) :
    getD (erase d k) k2 dflt = if k2 = k then dflt else getD d k2 dflt := by
  unfold getD
  rw [lookup_erase]
  by_cases hk2 : k2 = k <;> simp [hk2]

/-- Folding Python dict assignment over the entries of a dict with unique
keys: an entry of `kvs` wins, anything else falls through to `d`. -/
theorem lookup_foldl_insert {α β : Type _} [DecidableEq α] (kvs : PyDict α β)
    (d : PyDict α β) (hN : (kvs.map Prod.fst).Nodup) (k : α) :
    lookup (kvs.foldl (fun acc kv => insert acc kv.1 kv.2) d) k =
      match lookup kvs k with
      | some v => some v
      | none => lookup d k := by
  induction kvs generalizing d with
  | nil => simp [lookup]
  | cons kv rest ih =>
    simp only [List.map_cons, List.nodup_cons] at hN
    simp only [List.foldl_cons]
    rw [ih (insert d kv.1 kv.2) hN.2]
    by_cases hk : k = kv.1
    · have hnone : lookup rest kv.1 = none :=
        lookup_eq_none_of_not_mem_keys (by simpa [keys] using hN.1)
      subst hk
      simp [lookup, hnone, lookup_insert]
    · cases h : lookup rest k with
      | some v => simp [lookup, hk, h]
      | none => simp [lookup, hk, h, lookup_insert]

end PyDict

namespace DependencyGraph

theorem add_node_edges {μ : Type _} (g : DependencyGraph μ) (id : String)
    (d : PyDict String μ) : (add_node g id d).edges = g.edges := by
  unfold add_node
  split <;> rfl

theorem add_node_reverse_edges {μ : Type _} (g : DependencyGraph μ) (id : String)
    (d : PyDict String μ) : (add_node g id d).reverse_edges = g.reverse_edges := by
  unfold add_node
  split <;> rfl

/-- Effect of `add_edge` on the forward index. -/
theorem add_edge_edges {μ : Type _} (g : DependencyGraph μ) (s0 t0 : String)
    (d : PyDict String μ) :
    (add_edge g s0 t0 d).edges =
      (if t0 ∈ PyDict.getD g.edges s0 [] then g.edges
       else PyDict.insert g.edges s0 (PyDict.getD g.edges s0 [] ++ [t0])) := by
  simp only [add_edge, apply_ite DependencyGraph.edges, add_node_edges, ite_self]

/-- Effect of `add_edge` on the reverse index. -/
theorem add_edge_reverse_edges {μ : Type _} (g : DependencyGraph μ) (s0 t0 : String)
    (d : PyDict String μ) :
    (add_edge g s0 t0 d).reverse_edges =
      (if t0 ∈ PyDict.getD g.edges s0 [] then g.reverse_edges
       else PyDict.insert g.reverse_edges t0 (PyDict.getD g.reverse_edges t0 [] ++ [s0])) := by
  simp only [add_edge, apply_ite DependencyGraph.reverse_edges, apply_ite DependencyGraph.edges,
    add_node_edges, add_node_reverse_edges, ite_self]

/-- The reverse-edge index is exactly the inverse of the forward edge set. -/
def EdgeInvariant {μ : Type _} (g : DependencyGraph μ) : Prop :=
  ∀ s t : String, t ∈ g.get_dependencies s ↔ s ∈ g.get_dependents t

theorem edgeInvariant_empty {μ : Type _} : EdgeInvariant (empty μ) := by
  intro s t
  simp [get_dependencies, get_dependents, empty, PyDict.getD, PyDict.lookup]

theorem edgeInvariant_applyOp {μ : Type _} {g : DependencyGraph μ}
    (h : EdgeInvariant g) (op : GraphOp μ) : EdgeInvariant (applyOp g op) := by
  cases op with
  | addNode id data =>
    intro s t
    simp only [applyOp]
    unfold get_dependencies get_dependents
    rw [add_node_edges, add_node_reverse_edges]
    exact h s t
  | addUnresolvedImport s0 n =>
    intro s t
    exact h s t
  | addExternalDependency s0 n =>
    intro s t
    exact h s t
  | addEdge s0 t0 data =>
    intro s t
    simp only [applyOp]
    unfold get_dependencies get_dependents
    rw [add_edge_edges, add_edge_reverse_edges]
    by_cases hmem : t0 ∈ PyDict.getD g.edges s0 []
    · rw [if_pos hmem, if_pos hmem]
      exact h s t
    · rw [if_neg hmem, if_neg hmem, PyDict.getD_insert, PyDict.getD_insert]
      by_cases hs : s = s0 <;> by_cases ht : t = t0
      · rw [if_pos hs, if_pos ht]
        simp [hs, ht]
      · rw [if_pos hs, if_neg ht, hs]
        simp only [List.mem_append, List.mem_singleton, ht, or_false]
        exact h s0 t
      · rw [if_neg hs, if_pos ht, ht]
        simp only [List.mem_append, List.mem_singleton, hs, or_false]
        exact h s t0
      · rw [if_neg hs, if_neg ht]
        exact h s t

theorem edgeInvariant_foldl {μ : Type _} (ops : List (GraphOp μ))
    (g : DependencyGraph μ) (h : EdgeInvariant g) :
    EdgeInvariant (ops.foldl applyOp g) := by
  induction ops generalizing g with
  | nil => exact h
  | cons op rest ih => exact ih (applyOp g op) (edgeInvariant_applyOp h op)

end DependencyGraph

/-! ## Claims -/

open DependencyGraph IncrementalAnalyzer ImportPathResolver

/-- C8: for every graph state reachable from the empty graph by any sequence
of addNode, addEdge, addUnresolvedImport and addExternalDependency
operations, the reverse-edge index is exactly the inverse of the edge set:
target `t` appears in the edge list of source `s` if and only if `s` appears
in the reverse list of `t`. -/
theorem reverse_edge_index_consistent {μ : Type _} (ops : List (GraphOp μ))
    (s t : String) :
    t ∈ (runOps ops).get_dependencies s ↔ s ∈ (runOps ops).get_dependents t :=
  edgeInvariant_foldl ops (empty μ) edgeInvariant_empty s t

/-- C3 counterexample: `add_edge` stores no edge metadata at all, so the
metadata of the first invocation is not retained.  With two distinct
metadata dicts, adding the duplicate edge with the metadata in either order
produces the identical graph state, and the edge list holds bare target
identifiers only. -/
theorem addEdge_metadata_not_retained :
    (([("import_name", "x")] : PyDict String String) ≠ [("import_name", "y")]) ∧
    add_edge (add_edge (empty String) "A" "B" [("import_name", "x")]) "A" "B"
        [("import_name", "y")] =
      add_edge (add_edge (empty String) "A" "B" [("import_name", "y")]) "A" "B"
        [("import_name", "x")] ∧
    (add_edge (add_edge (empty String) "A" "B" [("import_name", "x")]) "A" "B"
        [("import_name", "y")]).edges = [("A", ["B"])] := by
  decide

/-- C3 (amended): invoking `add_edge` twice with the same (source, target)
pair leaves exactly one edge from source to target in the source's edge
list, and the resulting graph is independent of both metadata arguments —
edge metadata is not stored at all, so both invocations' metadata are
discarded (not merely the duplicate's). -/
theorem addEdge_idempotent_single_edge {μ : Type _} (g : DependencyGraph μ)
    (s t : String) (d1 d2 d3 d4 : PyDict String μ)
    (h : (g.get_dependencies s).count t ≤ 1) :
    ((add_edge (add_edge g s t d1) s t d2).get_dependencies s).count t = 1 ∧
    add_edge (add_edge g s t d1) s t d2 = add_edge (add_edge g s t d3) s t d4 := by
  constructor
  · unfold get_dependencies at h ⊢
    have hE1 := add_edge_edges g s t d1
    by_cases hmem : t ∈ PyDict.getD g.edges s []
    · rw [if_pos hmem] at hE1
      have hE2 := add_edge_edges (add_edge g s t d1) s t d2
      rw [hE1, if_pos hmem] at hE2
      rw [hE2]
      exact Nat.le_antisymm h (List.count_pos_iff.mpr hmem)
    · rw [if_neg hmem] at hE1
      have hE2 := add_edge_edges (add_edge g s t d1) s t d2
      rw [hE1, PyDict.getD_insert] at hE2
      rw [if_pos rfl, if_pos (by simp : t ∈ PyDict.getD g.edges s [] ++ [t])] at hE2
      rw [hE2, PyDict.getD_insert, if_pos rfl]
      have hzero : (PyDict.getD g.edges s []).count t = 0 :=
        List.count_eq_zero.mpr hmem
      simp [List.count_append, hzero]
  · rfl

/-- C3 witness: the amended idempotence at a concrete graph and metadata. -/
theorem addEdge_idempotent_single_edge_witness :
    ((add_edge (add_edge (empty Nat) "A" "B" [("line", 1)]) "A" "B"
        [("line", 2)]).get_dependencies "A").count "B" = 1 ∧
    add_edge (add_edge (empty Nat) "A" "B" [("line", 1)]) "A" "B" [("line", 2)] =
      add_edge (add_edge (empty Nat) "A" "B" [("line", 3)]) "A" "B" [("line", 4)] :=
  addEdge_idempotent_single_edge (empty Nat) "A" "B" [("line", 1)] [("line", 2)]
    [("line", 3)] [("line", 4)] (by decide)

/-- C5: serializing and deserializing a dependency graph preserves the node
map, the edge map, the unresolved-imports map and the external-dependencies
map, and re-serializing the deserialized snapshot is identical to the
original serialized form (insertion-order key convention).  The
deserializer is modelled from the spec (`from_dict`); `to_dict` is the
source's serializer. -/
theorem graph_serialization_round_trip {μ : Type _} (g : DependencyGraph μ) :
    (from_dict (to_dict g)).nodes = g.nodes ∧
    (from_dict (to_dict g)).edges = g.edges ∧
    (from_dict (to_dict g)).unresolved_imports = g.unresolved_imports ∧
    (from_dict (to_dict g)).external_deps = g.external_deps ∧
    to_dict (from_dict (to_dict g)) = to_dict g := by
  refine ⟨rfl, rfl, rfl, ?_, ?_⟩
  · simp [from_dict, to_dict]
  · simp [from_dict, to_dict]

/-- A graph that contains the edges A→B, B→C and C→A together with one
further edge A→C inserted first.  The DFS entered from A then reaches C
first, reports the two-cycle, and marks every node permanently visited, so
the three-cycle through B is never reported. -/
def sharedCycleGraph : DependencyGraph Unit :=
  add_edge (add_edge (add_edge (add_edge (empty Unit) "A" "C") "A" "B") "B" "C") "C" "A"

/-- C4 counterexample: a graph containing the edges A→B, B→C and C→A (with
A, B, C distinct) on which `find_cycles` reports no cycle containing all
three nodes — the only reported cycle is the two-cycle `[A, C, A]`. -/
theorem findCycles_misses_cycle_through_visited :
    ("B" ∈ sharedCycleGraph.get_dependencies "A" ∧
     "C" ∈ sharedCycleGraph.get_dependencies "B" ∧
     "A" ∈ sharedCycleGraph.get_dependencies "C") ∧
    find_cycles sharedCycleGraph = [["A", "C", "A"]] ∧
    (∀ cyc ∈ find_cycles sharedCycleGraph, ¬ ("A" ∈ cyc ∧ "B" ∈ cyc ∧ "C" ∈ cyc)) := by
  decide

/-- C4 (amended): for every graph built by adding exactly the edges A→B,
B→C and C→A (A, B, C distinct) to the empty graph, `find_cycles` reports
precisely the cycle `[A, B, C, A]` — the path-stack slice from the revisited
node A through the current node C, closed by repeating the start node —
which contains all three nodes.  (On graphs with additional edges the
single-pass detector may miss the three-cycle, as the counterexample
shows.) -/
theorem findCycles_reports_three_cycle (A B C : String)
    (hAB : A ≠ B) (hAC : A ≠ C) (hBC : B ≠ C) :
    find_cycles (add_edge (add_edge (add_edge (empty Unit) A B) B C) C A)
      = [[A, B, C, A]] := by
  have h1 : add_edge (empty Unit) A B =
      { nodes := [(A, []), (B, [])], edges := [(A, [B])],
        reverse_edges := [(B, [A])], unresolved_imports := [], external_deps := [] } := by
    simp [add_edge, add_node, PyDict.hasKey, PyDict.lookup, PyDict.insert, PyDict.getD, empty,
          hAB, Ne.symm hAB]
  rw [h1]
  have h2 : add_edge ({ nodes := [(A, []), (B, [])],
                        edges := [(A, [B])],
                        reverse_edges := [(B, [A])],
                        unresolved_imports := [],
                        external_deps := [] } : DependencyGraph Unit) B C =
      { nodes := [(A, []), (B, []), (C, [])], edges := [(A, [B]), (B, [C])],
        reverse_edges := [(B, [A]), (C, [B])], unresolved_imports := [], external_deps := [] } := by
    simp [add_edge, add_node, PyDict.hasKey, PyDict.lookup, PyDict.insert, PyDict.getD,
          hAB, hAC, hBC, Ne.symm hAB, Ne.symm hAC, Ne.symm hBC]
  rw [h2]
  have h3 : add_edge ({ nodes := [(A, []), (B, []), (C, [])],
                        edges := [(A, [B]), (B, [C])],
                        reverse_edges := [(B, [A]), (C, [B])],
                        unresolved_imports := [],
                        external_deps := [] } : DependencyGraph Unit) C A =
      { nodes := [(A, []), (B, []), (C, [])],
        edges := [(A, [B]), (B, [C]), (C, [A])],
        reverse_edges := [(B, [A]), (C, [B]), (A, [C])],
        unresolved_imports := [], external_deps := [] } := by
    simp [add_edge, add_node, PyDict.hasKey, PyDict.lookup, PyDict.insert, PyDict.getD,
          hAB, hAC, hBC, Ne.symm hAB, Ne.symm hAC, Ne.symm hBC]
  rw [h3]
  simp [find_cycles, dfsCycles, get_dependencies, get_all_nodes, PyDict.keys, PyDict.getD,
        PyDict.lookup, listIndex,
        hAB, hAC, hBC, Ne.symm hAB, Ne.symm hAC, Ne.symm hBC]

/-- C4 witness: the amended statement at concrete distinct module names. -/
theorem findCycles_reports_three_cycle_witness :
    find_cycles (add_edge (add_edge (add_edge (empty Unit) "a.py" "b.py") "b.py" "c.py")
        "c.py" "a.py") = [["a.py", "b.py", "c.py", "a.py"]] :=
  findCycles_reports_three_cycle "a.py" "b.py" "c.py" (by decide) (by decide) (by decide)

/-- C1: with a change set marking only module A's file modified, every
module present in the partial re-extraction has its edge list overwritten
wholesale in the merged snapshot, and every module absent from the partial
analysis (the deleted set being empty) keeps its cached edge list
unchanged. -/
theorem incremental_merge_replaces_per_module {κ : Type _}
    (cached partialResult : DepsAnalysis κ) (A : String) (commit_info : κ)
    (hN : (partialResult.dependencies.map Prod.fst).Nodup) :
    (∀ m v, PyDict.lookup partialResult.dependencies m = some v →
      PyDict.lookup (update_dependency_analysis cached ⟨[], [A], []⟩ partialResult
        commit_info).dependencies m = some v) ∧
    (∀ m, PyDict.lookup partialResult.dependencies m = none →
      PyDict.lookup (update_dependency_analysis cached ⟨[], [A], []⟩ partialResult
        commit_info).dependencies m = PyDict.lookup cached.dependencies m) := by
  have hdeps : (update_dependency_analysis cached ⟨[], [A], []⟩ partialResult
      commit_info).dependencies =
      partialResult.dependencies.foldl (fun d kv => PyDict.insert d kv.1 kv.2)
        cached.dependencies := rfl
  constructor
  · intro m v hm
    rw [hdeps, PyDict.lookup_foldl_insert partialResult.dependencies
      cached.dependencies hN m, hm]
  · intro m hm
    rw [hdeps, PyDict.lookup_foldl_insert partialResult.dependencies
      cached.dependencies hN m, hm]

/-- C1 witness: the spec's concrete scenario — cached `A ↦ [B], C ↦ [D]`,
only A modified, partial re-extraction `A ↦ [D]`; the merged map is exactly
`A ↦ [D], C ↦ [D]`. -/
theorem incremental_merge_replaces_per_module_witness :
    PyDict.lookup (update_dependency_analysis
      (⟨[("A", ["B"]), ("C", ["D"])], none⟩ : DepsAnalysis Unit)
      ⟨[], ["A"], []⟩ ⟨[("A", ["D"])], none⟩ ()).dependencies "A" = some ["D"] ∧
    PyDict.lookup (update_dependency_analysis
      (⟨[("A", ["B"]), ("C", ["D"])], none⟩ : DepsAnalysis Unit)
      ⟨[], ["A"], []⟩ ⟨[("A", ["D"])], none⟩ ()).dependencies "C" = some ["D"] ∧
    (update_dependency_analysis
      (⟨[("A", ["B"]), ("C", ["D"])], none⟩ : DepsAnalysis Unit)
      ⟨[], ["A"], []⟩ ⟨[("A", ["D"])], none⟩ ()).dependencies
      = [("A", ["D"]), ("C", ["D"])] := by
  have h := incremental_merge_replaces_per_module
    (⟨[("A", ["B"]), ("C", ["D"])], none⟩ : DepsAnalysis Unit)
    (⟨[("A", ["D"])], none⟩ : DepsAnalysis Unit) "A" () (by decide)
  refine ⟨h.1 "A" ["D"] (by decide), (h.2 "C" (by decide)).trans (by decide), by decide⟩

/-- C7: deleting module B's file removes B's key from the merged dependency
map, leaves A's edge list still containing B as a dangling reference, and
the aggregate-metrics recomputation tolerates the dangling target, counting
it as one dependency of one module. -/
theorem deletion_leaves_dangling_reference {κ : Type _} (A B delFile : String)
    (hAB : A ≠ B) (hdel : file_path_to_module_name delFile = B)
    (m0 : Option (DepMetrics κ)) (partialResult : DepsAnalysis κ) (commit_info : κ) :
    (update_dependency_analysis ⟨[(A, [B]), (B, [])], m0⟩ ⟨[], [], [delFile]⟩
      partialResult commit_info).dependencies = [(A, [B])] ∧
    PyDict.lookup (update_dependency_analysis ⟨[(A, [B]), (B, [])], m0⟩ ⟨[], [], [delFile]⟩
      partialResult commit_info).dependencies B = none ∧
    (update_dependency_analysis ⟨[(A, [B]), (B, [])], m0⟩ ⟨[], [], [delFile]⟩
      partialResult commit_info).metrics = some ⟨1, 1, commit_info⟩ := by
  have hB : ¬ (B = A) := fun h => hAB h.symm
  have hdeps : (update_dependency_analysis (⟨[(A, [B]), (B, [])], m0⟩ : DepsAnalysis κ)
      ⟨[], [], [delFile]⟩ partialResult commit_info).dependencies = [(A, [B])] := by
    simp [update_dependency_analysis, apply_deletions, apply_deletions.deleteOne,
          merge_partial_results, recalculate_metrics, Changes.combinedChanges, hdel,
          PyDict.hasKey, PyDict.lookup, PyDict.erase, hAB, hB]
  refine ⟨hdeps, ?_, ?_⟩
  · rw [hdeps]
    simp [PyDict.lookup, hB]
  · have hm : (update_dependency_analysis (⟨[(A, [B]), (B, [])], m0⟩ : DepsAnalysis κ)
        ⟨[], [], [delFile]⟩ partialResult commit_info).metrics =
        some ⟨(update_dependency_analysis (⟨[(A, [B]), (B, [])], m0⟩ : DepsAnalysis κ)
          ⟨[], [], [delFile]⟩ partialResult commit_info).dependencies.length,
          ((update_dependency_analysis (⟨[(A, [B]), (B, [])], m0⟩ : DepsAnalysis κ)
          ⟨[], [], [delFile]⟩ partialResult commit_info).dependencies.map
            (fun kv => kv.2.length)).sum, commit_info⟩ := rfl
    rw [hm, hdeps]
    simp

/-- C7 witness: the deletion scenario at concrete module names, with the
deleted file path `B.py` mapping to module `B`. -/
theorem deletion_leaves_dangling_reference_witness :
    (update_dependency_analysis (⟨[("A", ["B"]), ("B", [])], none⟩ : DepsAnalysis Unit)
      ⟨[], [], ["B.py"]⟩ ⟨[], none⟩ ()).dependencies = [("A", ["B"])] ∧
    PyDict.lookup (update_dependency_analysis
      (⟨[("A", ["B"]), ("B", [])], none⟩ : DepsAnalysis Unit)
      ⟨[], [], ["B.py"]⟩ ⟨[], none⟩ ()).dependencies "B" = none ∧
    (update_dependency_analysis (⟨[("A", ["B"]), ("B", [])], none⟩ : DepsAnalysis Unit)
      ⟨[], [], ["B.py"]⟩ ⟨[], none⟩ ()).metrics = some ⟨1, 1, ()⟩ :=
  deletion_leaves_dangling_reference "A" "B" "B.py" (by decide) (by decide) none ⟨[], none⟩ ()

/-- C9 counterexample: an incremental update over an empty diff does not
return the cached snapshot verbatim — the metrics field is recomputed
unconditionally, so a cached snapshot whose metrics disagree with the
recomputed values comes back changed. -/
theorem empty_diff_not_verbatim :
    update_dependency_analysis (⟨[], some ⟨5, 7, ()⟩⟩ : DepsAnalysis Unit)
        ⟨[], [], []⟩ ⟨[], none⟩ () ≠ ⟨[], some ⟨5, 7, ()⟩⟩ ∧
    (update_dependency_analysis (⟨[], some ⟨5, 7, ()⟩⟩ : DepsAnalysis Unit)
        ⟨[], [], []⟩ ⟨[], none⟩ ()).metrics = some ⟨0, 0, ()⟩ := by
  decide

/-- C9 (amended): with cache entries present and an empty diff, mode
selection returns Incremental, and the update pipeline performs no
dependency work — the dependencies map is returned unchanged — while the
metrics field is recomputed (module count, total dependency count,
last-updated stamp) rather than returned verbatim. -/
theorem empty_diff_incremental_dependencies_preserved {κ : Type _}
    (ck : List String) (hck : ck ≠ []) (cached partialResult : DepsAnalysis κ) (ci : κ) :
    should_use_incremental false ck ⟨[], [], []⟩ = true ∧
    (update_dependency_analysis cached ⟨[], [], []⟩ partialResult ci).dependencies
      = cached.dependencies ∧
    (update_dependency_analysis cached ⟨[], [], []⟩ partialResult ci).metrics =
      some ⟨cached.dependencies.length,
        (cached.dependencies.map (fun kv => kv.2.length)).sum, ci⟩ := by
  refine ⟨?_, rfl, rfl⟩
  simp [should_use_incremental, hck, Changes.anyChanges]

/-- C9 witness: the amended statement at a concrete cache and snapshot. -/
theorem empty_diff_incremental_dependencies_preserved_witness :
    should_use_incremental false ["deps_analysis:abc"] ⟨[], [], []⟩ = true ∧
    (update_dependency_analysis (⟨[("A", ["B"])], none⟩ : DepsAnalysis Unit)
      ⟨[], [], []⟩ ⟨[], none⟩ ()).dependencies = [("A", ["B"])] ∧
    (update_dependency_analysis (⟨[("A", ["B"])], none⟩ : DepsAnalysis Unit)
      ⟨[], [], []⟩ ⟨[], none⟩ ()).metrics = some ⟨1, 1, ()⟩ :=
  empty_diff_incremental_dependencies_preserved ["deps_analysis:abc"] (by decide)
    ⟨[("A", ["B"])], none⟩ ⟨[], none⟩ ()

/-- C2: mode selection.  Forcing full analysis selects Full; an empty cache
selects Full; otherwise, with changes reported, Full is selected exactly
when the union of added, modified and deleted files has strictly more than
100 distinct members. -/
theorem should_use_incremental_mode_selection (ck : List String) (ch : Changes) :
    should_use_incremental true ck ch = false ∧
    should_use_incremental false [] ch = false ∧
    (ck ≠ [] → ch.anyChanges = true →
      (should_use_incremental false ck ch = false ↔ 100 < ch.allChangedFiles.length)) := by
  refine ⟨rfl, by simp [should_use_incremental], ?_⟩
  intro hck hch
  simp only [should_use_incremental, if_neg hck, hch]
  by_cases h100 : 100 < ch.allChangedFiles.length <;> simp [h100]

/-- A change set of 101 distinct files. -/
def bigChangeSet : Changes :=
  { added := (List.range 101).map (fun n => "f" ++ Nat.repr n), modified := [], deleted := [] }

/-- A change set of 99 distinct files. -/
def smallChangeSet : Changes :=
  { added := (List.range 99).map (fun n => "f" ++ Nat.repr n), modified := [], deleted := [] }

/-- C2 witness: 101 distinct changed files force Full mode even with a
cache present; 99 distinct changed files with a cache stay Incremental. -/
theorem should_use_incremental_mode_selection_witness :
    should_use_incremental false ["k"] bigChangeSet = false ∧
    should_use_incremental false ["k"] smallChangeSet = true := by
  constructor
  · exact ((should_use_incremental_mode_selection ["k"] bigChangeSet).2.2
      (by decide) (by decide)).mpr (by decide)
  · have h := (should_use_incremental_mode_selection ["k"] smallChangeSet).2.2
      (by decide) (by decide)
    cases hb : should_use_incremental false ["k"] smallChangeSet
    · exact absurd (h.mp hb) (by decide)
    · rfl

/-- C10: both incremental update steps leave the caller's cached record
unchanged: reading the cached cell after `_update_dependency_analysis`
(resp. `_update_metrics_analysis`) returns exactly what it held before the
call — deletions, per-module replacements and metric recomputation all land
on the freshly allocated deep copy. -/
theorem update_steps_leave_input_unchanged {κ : Type _}
    (mem : List (DepsAnalysis κ)) (r : Nat) (hr : r < mem.length)
    (changes : Changes) (partialResult : DepsAnalysis κ) (ci : κ) (dflt : DepsAnalysis κ)
    (memM : List (MetricsAnalysis κ)) (rM : Nat) (hrM : rM < memM.length)
    (changed : List String) (pfm : PyDict String (PyDict String Nat)) (ciM : κ)
    (dfltM : MetricsAnalysis κ) :
    heapRead (update_dependency_analysis_onHeap mem r changes partialResult ci dflt).1 r
      = heapRead mem r ∧
    heapRead (update_metrics_analysis_onHeap memM rM changed pfm ciM dfltM).1 rM
      = heapRead memM rM := by
  constructor
  · have hne : r ≠ mem.length := Nat.ne_of_lt hr
    simp only [update_dependency_analysis_onHeap, heapAlloc]
    rw [heapRead_modify_ne _ _ _ _ hne]
    split
    · rw [heapRead_modify_ne _ _ _ _ hne]
      exact heapRead_alloc_lt mem _ r hr
    · rw [heapRead_modify_ne _ _ _ _ hne, heapRead_modify_ne _ _ _ _ hne]
      exact heapRead_alloc_lt mem _ r hr
  · have hne : rM ≠ memM.length := Nat.ne_of_lt hrM
    simp only [update_metrics_analysis_onHeap, heapAlloc]
    rw [heapRead_modify_ne _ _ _ _ hne, heapRead_modify_ne _ _ _ _ hne]
    exact heapRead_alloc_lt memM _ rM hrM

/-- C10 witness: the frame property at concrete one-cell heaps. -/
theorem update_steps_leave_input_unchanged_witness :
    heapRead (update_dependency_analysis_onHeap
      [(⟨[("A", ["B"])], none⟩ : DepsAnalysis Unit)] 0
      ⟨["A.py"], [], []⟩ ⟨[("A", [])], none⟩ () ⟨[], none⟩).1 0
      = some ⟨[("A", ["B"])], none⟩ ∧
    heapRead (update_metrics_analysis_onHeap
      [(⟨[("a.py", [("loc", 3)])], none⟩ : MetricsAnalysis Unit)] 0
      ["a.py"] [] () ⟨[], none⟩).1 0
      = some ⟨[("a.py", [("loc", 3)])], none⟩ :=
  update_steps_leave_input_unchanged
    [(⟨[("A", ["B"])], none⟩ : DepsAnalysis Unit)] 0 (by decide)
    ⟨["A.py"], [], []⟩ ⟨[("A", [])], none⟩ () ⟨[], none⟩
    [(⟨[("a.py", [("loc", 3)])], none⟩ : MetricsAnalysis Unit)] 0 (by decide)
    ["a.py"] [] () ⟨[], none⟩

/-- A filesystem model whose every probe raises a permission error. -/
def errOs : OsModel :=
  { isfile := fun _ => Except.error IOErr.permissionDenied,
    abspath := fun p => p,
    dirname := fun p => p }

/-- A freshly initialised resolver with an empty memoization cache. -/
def plainResolver : Resolver :=
  { root_dir := "/repo", python_ext := ".py", sys_path := ["/repo"], path_cache := [] }

/-- C6 counterexample: under a filesystem whose probe raises a permission
error, the probing body reports the I/O error, yet `resolve_import` returns
the plain not-found outcome (None) with the resolver state unchanged — the
error does not propagate and nothing resembling a ResolutionError is
surfaced or recorded (no such error type exists in the resolver). -/
theorem resolve_import_swallows_io_error :
    resolve_attempt errOs plainResolver "m" (some "/repo/src.py") 0
      = Except.error IOErr.permissionDenied ∧
    resolve_import errOs plainResolver "m" (some "/repo/src.py") 0
      = (none, plainResolver) := by
  constructor <;> rfl

/-- C6 (amended): `resolve_import` never throws: when the probing body
finds no candidate file it returns the not-found outcome None; when the
body raises a filesystem I/O error, the error is caught and the call also
returns None with the resolver state unchanged (nothing is recorded — no
ResolutionError exists); a relative import (level ≥ 1) without source-file
context returns None with the state unchanged rather than raising. -/
theorem resolve_import_error_policy (osm : OsModel) (r : Resolver) (n : String)
    (sf : Option String) (level : Nat)
    (hkey : PyDict.lookup r.path_cache (resolveCacheKey n sf level) = none) :
    (∀ e, resolve_attempt osm r n sf level = Except.error e →
      resolve_import osm r n sf level = (none, r)) ∧
    (∀ v, resolve_attempt osm r n sf level = Except.ok v →
      (resolve_import osm r n sf level).1 = v) ∧
    (level ≥ 1 → sf = none → resolve_import osm r n sf level = (none, r)) := by
  by_cases hg : level > 0 ∧ sf = none
  · have hattempt : resolve_attempt osm r n sf level = Except.ok none := by
      simp only [resolve_attempt, if_pos hg.1, hg.2]
    have hres : resolve_import osm r n sf level = (none, r) := by
      simp only [resolve_import, hkey, if_pos hg]
    refine ⟨?_, ?_, ?_⟩
    · intro e he
      rw [hattempt] at he
      exact absurd he (by simp)
    · intro v hv
      rw [hattempt] at hv
      cases hv
      rw [hres]
    · intro _ _
      exact hres
  · refine ⟨?_, ?_, ?_⟩
    · intro e he
      simp only [resolve_import, hkey, if_neg hg, he]
    · intro v hv
      simp only [resolve_import, hkey, if_neg hg, hv]
    · intro h1 h2
      exact absurd ⟨h1, h2⟩ hg

/-- C6 witness: the amended policy applied at the erroring filesystem (I/O
error swallowed into None) and at a relative import without source context. -/
theorem resolve_import_error_policy_witness :
    resolve_import errOs plainResolver "m" (some "/repo/src.py") 0
      = (none, plainResolver) ∧
    resolve_import errOs plainResolver "pkg.mod" none 2 = (none, plainResolver) := by
  have h1 := resolve_import_error_policy errOs plainResolver "m" (some "/repo/src.py") 0 rfl
  have h2 := resolve_import_error_policy errOs plainResolver "pkg.mod" none 2 rfl
  exact ⟨h1.1 IOErr.permissionDenied rfl, h2.2.2 (by decide) rfl⟩

end CodexArch
